import Mathlib

/-!
A shallow embedding of `src/postgres/string_field.go` (package `sq`) of
go-structured-query, together with theorems about its rendering protocol.

Go strings are modelled as Lean `String`, Go slices as Lean lists (a `nil`
slice is modelled as `Option.none`, a non-nil slice as `Option.some xs`,
since the only operation performed on the slice — a `range` loop — runs
zero iterations on a nil slice, exactly like on an empty one).  The Go
`*strings.Builder` buffer and the `*[]interface{}` argument slice that
`AppendSQLExclude` mutates are modelled by explicit state passing: the
function takes the current buffer contents and argument list and returns
the updated pair.
-/

/-- Modelled from the spec: the `Table` collaborator is not part of the
source under `src/`; §6 of the spec requires it to expose
`GetAlias() -> string` and `GetName() -> string`.  It is modelled as a
record of those two strings. -/
structure Table where
  tAlias : String
  tName : String
deriving DecidableEq, Repr

/-- `Table.GetAlias` as required by the spec's collaborator contract. -/
def Table.GetAlias (t : Table) : String := t.tAlias

/-- `Table.GetName` as required by the spec's collaborator contract. -/
def Table.GetName (t : Table) : String := t.tName

/-- Modelled from the spec: a `RowValue` operand (spec §4.3, "row-value
wrapper").  Its internal structure is irrelevant to the claims, so it is
modelled as an opaque token. -/
structure RowValue where
  tag : Nat
deriving DecidableEq, Repr

/-- Modelled from the spec: the nestable `Query` collaborator (spec §6).
Its internal structure is irrelevant here beyond identity and the
`NestThis` operation, so it is modelled as a token plus a nesting flag. -/
structure Query where
  tag : Nat
  nested : Bool := false
deriving DecidableEq, Repr

/-- Modelled from the spec: `Query.NestThis` returns the query's
"render as nested expression" form (spec §6). -/
def Query.NestThis (q : Query) : Query := { q with nested := true }

/-- `StringField` either represents a string column or a literal string
value (source lines 14–36).  The Go pointers `value *string`,
`descending *bool`, `nullsfirst *bool` are modelled at the value level as
`Option`s; `table Table` (an interface value) as the `Table` record. -/
structure StringField where
  value : Option String
  fAlias : String
  table : Table
  name : String
  descending : Option Bool
  nullsfirst : Option Bool
deriving DecidableEq, Repr

/-- A dynamic value, modelling Go's `interface{}` restricted to the kinds
that occur in `string_field.go`: strings (appended to the argument list
and passed to the `*String` builders), `StringField`s, `RowValue`s,
`Query`s, and anything else (opaque). -/
inductive SQLValue where
  | str (s : String)
  | field (f : StringField)
  | rowValue (r : RowValue)
  | query (q : Query)
  | other (n : Nat)
deriving DecidableEq, Repr

/-- Models Go `strings.ContainsAny(s, " \t")`: does `s` contain a space
or a tab character? -/
def containsSpaceOrTab (s : String) : Bool :=
  s.data.any fun c => c == ' ' || c == '\t'

/-- Models the `for i := range excludedTableQualifiers` loop of source
lines 52–57: the qualifier is zeroed exactly when it equals some element.
A `none` argument is a Go nil slice, over which `range` runs zero
iterations. -/
def rangeContains (tq : String) : Option (List String) → Bool
  | none => false
  | some xs => xs.any fun x => tq == x

/-- `StringField.AppendSQLExclude` (source lines 40–90), with the buffer
and argument slice passed and returned explicitly.  Each
`buf.WriteString` becomes a string append; `*args = append(*args, *f.value)`
becomes a list append. -/
def StringField.AppendSQLExclude (f : StringField) (buf : String)
    (args : List SQLValue) (excludedTableQualifiers : Option (List String)) :
    String × List SQLValue :=
  let (buf1, args1) :=
    match f.value with
    | some v =>
      -- 1) Literal string value
      (buf ++ "?", args ++ [SQLValue.str v])
    | none =>
      -- 2) String column
      let tq0 := f.table.GetAlias
      let tq1 := if tq0 = "" then f.table.GetName else tq0
      let tq2 := if rangeContains tq1 excludedTableQualifiers then "" else tq1
      let bufQ :=
        if tq2 ≠ "" then
          if containsSpaceOrTab tq2 then buf ++ "\"" ++ tq2 ++ "\"" ++ "."
          else buf ++ tq2 ++ "."
        else buf
      let bufN :=
        if containsSpaceOrTab f.name then bufQ ++ "\"" ++ f.name ++ "\""
        else bufQ ++ f.name
      (bufN, args)
  let buf2 :=
    match f.descending with
    | some b => if b then buf1 ++ " DESC" else buf1 ++ " ASC"
    | none => buf1
  let buf3 :=
    match f.nullsfirst with
    | some b => if b then buf2 ++ " NULLS FIRST" else buf2 ++ " NULLS LAST"
    | none => buf2
  (buf3, args1)

/-- `NewStringField` (source lines 93–98): a column reference; the other
fields are Go zero values. -/
def NewStringField (name : String) (table : Table) : StringField :=
  { value := none, fAlias := "", table := table, name := name,
    descending := none, nullsfirst := none }

/-- The Go function `String` (source lines 101–105): a literal string
value.  Named `sq.String` because `String` itself is the Lean string
type. -/
def sq.String (s : String) : StringField :=
  { value := some s, fAlias := "", table := { tAlias := "", tName := "" },
    name := "", descending := none, nullsfirst := none }

/-- Modelled from the spec: `FieldAssignment` is not under `src/`; its
two fields are exactly those populated by `Set`/`SetString` in the
source (lines 109–123). -/
structure FieldAssignment where
  Field : StringField
  Value : SQLValue
deriving DecidableEq, Repr

/-- `StringField.Set` (source lines 109–114). -/
def StringField.Set (f : StringField) (value : SQLValue) : FieldAssignment :=
  { Field := f, Value := value }

/-- `StringField.SetString` (source lines 118–123). -/
def StringField.SetString (f : StringField) (s : String) : FieldAssignment :=
  { Field := f, Value := SQLValue.str s }

/-- `StringField.As` (source lines 126–129): value receiver, returns the
copy with the alias replaced. -/
def StringField.As (f : StringField) (a : String) : StringField :=
  { f with fAlias := a }

/-- `StringField.Asc` (source lines 133–137). -/
def StringField.Asc (f : StringField) : StringField :=
  { f with descending := some false }

/-- `StringField.Desc` (source lines 141–145). -/
def StringField.Desc (f : StringField) : StringField :=
  { f with descending := some true }

/-- `StringField.NullsFirst` (source lines 149–153). -/
def StringField.NullsFirst (f : StringField) : StringField :=
  { f with nullsfirst := some true }

/-- `StringField.NullsLast` (source lines 157–161). -/
def StringField.NullsLast (f : StringField) : StringField :=
  { f with nullsfirst := some false }

/-- `CustomPredicate` as used by every predicate builder in the source:
a format string plus an ordered operand list.  (The repository type is
not under `src/`; the two fields are exactly those populated there.) -/
structure CustomPredicate where
  Format : String
  Values : List SQLValue
deriving DecidableEq, Repr

/-- The builders all return `CustomPredicate`s; the `Predicate`
interface is modelled by that one implementation. -/
abbrev Predicate := CustomPredicate

/-- `StringField.IsNull` (source lines 164–169). -/
def StringField.IsNull (f : StringField) : Predicate :=
  { Format := "? IS NULL", Values := [SQLValue.field f] }

/-- `StringField.IsNotNull` (source lines 172–177). -/
def StringField.IsNotNull (f : StringField) : Predicate :=
  { Format := "? IS NOT NULL", Values := [SQLValue.field f] }

/-- `StringField.Eq` (source lines 180–185). -/
def StringField.Eq (f field : StringField) : Predicate :=
  { Format := "? = ?", Values := [SQLValue.field f, SQLValue.field field] }

/-- `StringField.Ne` (source lines 188–193). -/
def StringField.Ne (f field : StringField) : Predicate :=
  { Format := "? <> ?", Values := [SQLValue.field f, SQLValue.field field] }

/-- `StringField.Gt` (source lines 196–201). -/
def StringField.Gt (f field : StringField) : Predicate :=
  { Format := "? > ?", Values := [SQLValue.field f, SQLValue.field field] }

/-- `StringField.Ge` (source lines 204–209). -/
def StringField.Ge (f field : StringField) : Predicate :=
  { Format := "? >= ?", Values := [SQLValue.field f, SQLValue.field field] }

/-- `StringField.Lt` (source lines 212–217). -/
def StringField.Lt (f field : StringField) : Predicate :=
  { Format := "? < ?", Values := [SQLValue.field f, SQLValue.field field] }

/-- `StringField.Le` (source lines 220–225). -/
def StringField.Le (f field : StringField) : Predicate :=
  { Format := "? <= ?", Values := [SQLValue.field f, SQLValue.field field] }

/-- `StringField.EqString` (source lines 228–233). -/
def StringField.EqString (f : StringField) (s : String) : Predicate :=
  { Format := "? = ?", Values := [SQLValue.field f, SQLValue.str s] }

/-- `StringField.NeString` (source lines 236–241). -/
def StringField.NeString (f : StringField) (s : String) : Predicate :=
  { Format := "? <> ?", Values := [SQLValue.field f, SQLValue.str s] }

/-- `StringField.GtString` (source lines 244–249). -/
def StringField.GtString (f : StringField) (s : String) : Predicate :=
  { Format := "? > ?", Values := [SQLValue.field f, SQLValue.str s] }

/-- `StringField.GeString` (source lines 252–257). -/
def StringField.GeString (f : StringField) (s : String) : Predicate :=
  { Format := "? >= ?", Values := [SQLValue.field f, SQLValue.str s] }

/-- `StringField.LtString` (source lines 260–265). -/
def StringField.LtString (f : StringField) (s : String) : Predicate :=
  { Format := "? < ?", Values := [SQLValue.field f, SQLValue.str s] }

/-- `StringField.LeString` (source lines 268–273). -/
def StringField.LeString (f : StringField) (s : String) : Predicate :=
  { Format := "? <= ?", Values := [SQLValue.field f, SQLValue.str s] }

/-- `StringField.LikeString` (source lines 276–281). -/
def StringField.LikeString (f : StringField) (s : String) : Predicate :=
  { Format := "? LIKE ?", Values := [SQLValue.field f, SQLValue.str s] }

/-- `StringField.NotLikeString` (source lines 284–289). -/
def StringField.NotLikeString (f : StringField) (s : String) : Predicate :=
  { Format := "? NOT LIKE ?", Values := [SQLValue.field f, SQLValue.str s] }

/-- `StringField.ILikeString` (source lines 292–297). -/
def StringField.ILikeString (f : StringField) (s : String) : Predicate :=
  { Format := "? ILIKE ?", Values := [SQLValue.field f, SQLValue.str s] }

/-- `StringField.NotILikeString` (source lines 300–305). -/
def StringField.NotILikeString (f : StringField) (s : String) : Predicate :=
  { Format := "? NOT ILIKE ?", Values := [SQLValue.field f, SQLValue.str s] }

/-- `StringField.In` (source lines 308–326): dispatch on the dynamic
kind of the operand at construction time. -/
def StringField.In (f : StringField) (v : SQLValue) : Predicate :=
  match v with
  | SQLValue.rowValue r =>
    { Format := "? IN ?", Values := [SQLValue.field f, SQLValue.rowValue r] }
  | SQLValue.query q =>
    { Format := "? IN (?)",
      Values := [SQLValue.field f, SQLValue.query q.NestThis] }
  | v =>
    { Format := "? IN (?)", Values := [SQLValue.field f, v] }

/-- `StringField.GetAlias` (source lines 339–341). -/
def StringField.GetAlias (f : StringField) : String := f.fAlias

/-- `StringField.GetName` (source lines 345–347). -/
def StringField.GetName (f : StringField) : String := f.name

/-! Derived decompositions of the rendering function, used to state the
claims. -/

/-- The identifier-quoting rule applied by the column branch of
`AppendSQLExclude`: wrap in double quotes when the identifier contains a
space or tab, emit bare otherwise; the identifier itself is never
escaped. -/
def quoteIdent (s : String) : String :=
  if containsSpaceOrTab s then "\"" ++ s ++ "\"" else s

/-- The effective table qualifier of a column reference (source lines
48–51): the table's alias if non-empty, otherwise its name. -/
def effQualifier (t : Table) : String :=
  if t.GetAlias = "" then t.GetName else t.GetAlias

/-- The qualifier prefix emitted by the column branch: present exactly
when the effective qualifier is non-empty and not excluded. -/
def qualifierPart (t : Table) (ex : Option (List String)) : String :=
  if effQualifier t ≠ "" ∧ rangeContains (effQualifier t) ex = false then
    quoteIdent (effQualifier t) ++ "."
  else ""

/-- The order-direction suffix (source lines 76–82). -/
def descSuffix : Option Bool → String
  | some true => " DESC"
  | some false => " ASC"
  | none => ""

/-- The nulls-ordering suffix (source lines 83–89). -/
def nullsSuffix : Option Bool → String
  | some true => " NULLS FIRST"
  | some false => " NULLS LAST"
  | none => ""

/-- What the mode branch of `AppendSQLExclude` writes to the buffer:
"?" for a literal, the (possibly suppressed, possibly quoted) qualifier
prefix followed by the (possibly quoted) column name for a column. -/
def renderBase (f : StringField) (ex : Option (List String)) : String :=
  match f.value with
  | some _ => "?"
  | none => qualifierPart f.table ex ++ quoteIdent f.name

/-- What the mode branch of `AppendSQLExclude` appends to the argument
list: the literal value for a literal, nothing for a column. -/
def literalArgs (f : StringField) : List SQLValue :=
  match f.value with
  | some v => [SQLValue.str v]
  | none => []

/-- Closed-form characterization of `AppendSQLExclude`: base fragment,
then order-direction suffix, then nulls-ordering suffix; the argument
list grows exactly by the literal value, if any. -/
theorem render_eq (f : StringField) (buf : String) (args : List SQLValue)
    (ex : Option (List String)) :
    f.AppendSQLExclude buf args ex =
      (buf ++ renderBase f ex ++ descSuffix f.descending
           ++ nullsSuffix f.nullsfirst,
       args ++ literalArgs f) := by
  obtain ⟨v, al, t, n, d, nf⟩ := f
  cases v with
  | some s =>
    rcases d with _ | (_ | _) <;> rcases nf with _ | (_ | _) <;>
    simp [StringField.AppendSQLExclude, renderBase, literalArgs,
      descSuffix, nullsSuffix]
  | none =>
    rcases d with _ | (_ | _) <;> rcases nf with _ | (_ | _) <;>
    simp only [StringField.AppendSQLExclude, renderBase, literalArgs,
      qualifierPart, effQualifier, quoteIdent, descSuffix, nullsSuffix,
      Table.GetAlias, Table.GetName] <;>
    cases h1 : rangeContains (if t.tAlias = "" then t.tName else t.tAlias) ex <;>
    by_cases h2 : (if t.tAlias = "" then t.tName else t.tAlias) = "" <;>
    by_cases h3 : containsSpaceOrTab (if t.tAlias = "" then t.tName else t.tAlias) <;>
    by_cases h4 : containsSpaceOrTab n <;>
    simp [h1, h2, h3, h4, ← String.append_assoc]

/-- Number of `?` placeholder markers in a format string. -/
def countPlaceholders (s : String) : Nat :=
  s.data.count '?'

/-- C1: rendering the literal field `String v` writes exactly "?" to the
buffer and appends exactly `[v]` to the argument list, for every string
`v` and every excluded-qualifier list. -/
theorem literal_round_trip (v : String) (buf : String) (args : List SQLValue)
    (ex : Option (List String)) :
    (sq.String v).AppendSQLExclude buf args ex =
      (buf ++ "?", args ++ [SQLValue.str v]) := by
  rfl

/-- C8: rendering a `StringField` can never fail: `AppendSQLExclude` is a
total function satisfying the closed form below for every field, buffer,
argument list and excluded-qualifiers list, and identifiers are passed
through verbatim subject only to the whitespace-quoting rule (the quoted
form is exactly the raw identifier wrapped in double quotes — no
escaping of its characters). -/
theorem render_never_fails (f : StringField) (buf : String)
    (args : List SQLValue) (ex : Option (List String)) :
    f.AppendSQLExclude buf args ex =
      (buf ++ renderBase f ex ++ descSuffix f.descending
         ++ nullsSuffix f.nullsfirst,
       args ++ literalArgs f)
    ∧ (quoteIdent f.name = f.name
       ∨ quoteIdent f.name = "\"" ++ f.name ++ "\"")
    ∧ (quoteIdent (effQualifier f.table) = effQualifier f.table
       ∨ quoteIdent (effQualifier f.table)
           = "\"" ++ effQualifier f.table ++ "\"") := by
  refine ⟨render_eq f buf args ex, ?_, ?_⟩ <;>
    · unfold quoteIdent
      split
      · exact Or.inr rfl
      · exact Or.inl rfl

/-- C4: the order-direction suffix is " DESC" exactly when `descending`
is set true, " ASC" exactly when set false; then the nulls suffix is
" NULLS FIRST" / " NULLS LAST" exactly when `nullsfirst` is set true /
false; a field with neither decoration gets no suffix; the suffixes are
independent and are appended after the mode branch, identically for
literals and columns. -/
theorem order_nulls_suffix (f : StringField) (buf : String)
    (args : List SQLValue) (ex : Option (List String)) :
    f.AppendSQLExclude buf args ex =
      ((({ f with descending := none, nullsfirst := none }
           : StringField).AppendSQLExclude buf args ex).1
         ++ descSuffix f.descending ++ nullsSuffix f.nullsfirst,
       (({ f with descending := none, nullsfirst := none }
           : StringField).AppendSQLExclude buf args ex).2)
    ∧ descSuffix (some true) = " DESC" ∧ descSuffix (some false) = " ASC"
    ∧ nullsSuffix (some true) = " NULLS FIRST"
    ∧ nullsSuffix (some false) = " NULLS LAST"
    ∧ descSuffix none = "" ∧ nullsSuffix none = "" := by
  refine ⟨?_, rfl, rfl, rfl, rfl, rfl, rfl⟩
  rw [render_eq, render_eq]
  simp [renderBase, literalArgs, descSuffix, nullsSuffix]

/-- C9: the output alias is never emitted by `AppendSQLExclude`:
rendering `f.As a` produces exactly the same fragment and argument list
as rendering `f`, for any alias and any excluded-qualifiers list. -/
theorem alias_never_emitted (f : StringField) (a buf : String)
    (args : List SQLValue) (ex : Option (List String)) :
    (f.As a).AppendSQLExclude buf args ex
      = f.AppendSQLExclude buf args ex := by
  rw [render_eq, render_eq]
  simp [StringField.As, renderBase, literalArgs]

/-- C10: on a string input, the generic assignment builder `Set` and the
string-specific `SetString` return identical `FieldAssignment` values. -/
theorem set_setString_agree (f : StringField) (s : String) :
    f.Set (SQLValue.str s) = f.SetString s := rfl

/-- C7: every binary comparison and pattern predicate builder produces a
template with exactly two `?` markers and exactly two operands, and the
null-check builders produce one marker and one operand. -/
theorem predicate_arity (f g : StringField) (s : String) :
    (countPlaceholders (f.Eq g).Format = 2 ∧ (f.Eq g).Values.length = 2)
    ∧ (countPlaceholders (f.Ne g).Format = 2 ∧ (f.Ne g).Values.length = 2)
    ∧ (countPlaceholders (f.Gt g).Format = 2 ∧ (f.Gt g).Values.length = 2)
    ∧ (countPlaceholders (f.Ge g).Format = 2 ∧ (f.Ge g).Values.length = 2)
    ∧ (countPlaceholders (f.Lt g).Format = 2 ∧ (f.Lt g).Values.length = 2)
    ∧ (countPlaceholders (f.Le g).Format = 2 ∧ (f.Le g).Values.length = 2)
    ∧ (countPlaceholders (f.EqString s).Format = 2
        ∧ (f.EqString s).Values.length = 2)
    ∧ (countPlaceholders (f.NeString s).Format = 2
        ∧ (f.NeString s).Values.length = 2)
    ∧ (countPlaceholders (f.GtString s).Format = 2
        ∧ (f.GtString s).Values.length = 2)
    ∧ (countPlaceholders (f.GeString s).Format = 2
        ∧ (f.GeString s).Values.length = 2)
    ∧ (countPlaceholders (f.LtString s).Format = 2
        ∧ (f.LtString s).Values.length = 2)
    ∧ (countPlaceholders (f.LeString s).Format = 2
        ∧ (f.LeString s).Values.length = 2)
    ∧ (countPlaceholders (f.LikeString s).Format = 2
        ∧ (f.LikeString s).Values.length = 2)
    ∧ (countPlaceholders (f.NotLikeString s).Format = 2
        ∧ (f.NotLikeString s).Values.length = 2)
    ∧ (countPlaceholders (f.ILikeString s).Format = 2
        ∧ (f.ILikeString s).Values.length = 2)
    ∧ (countPlaceholders (f.NotILikeString s).Format = 2
        ∧ (f.NotILikeString s).Values.length = 2)
    ∧ (countPlaceholders f.IsNull.Format = 1 ∧ f.IsNull.Values.length = 1)
    ∧ (countPlaceholders f.IsNotNull.Format = 1
        ∧ f.IsNotNull.Values.length = 1) :=
  ⟨⟨rfl, rfl⟩, ⟨rfl, rfl⟩, ⟨rfl, rfl⟩, ⟨rfl, rfl⟩, ⟨rfl, rfl⟩, ⟨rfl, rfl⟩,
   ⟨rfl, rfl⟩, ⟨rfl, rfl⟩, ⟨rfl, rfl⟩, ⟨rfl, rfl⟩, ⟨rfl, rfl⟩, ⟨rfl, rfl⟩,
   ⟨rfl, rfl⟩, ⟨rfl, rfl⟩, ⟨rfl, rfl⟩, ⟨rfl, rfl⟩, ⟨rfl, rfl⟩, ⟨rfl, rfl⟩⟩

/-- C6: `In` dispatches on the dynamic kind of its operand at
construction time: a `RowValue` yields template "? IN ?" with the
row-value as the whole second operand; a `Query` yields "? IN (?)" with
the query's nested form; anything else yields "? IN (?)" with the
operand itself. -/
theorem in_dispatch (f : StringField) :
    (∀ r : RowValue, f.In (SQLValue.rowValue r) =
      { Format := "? IN ?",
        Values := [SQLValue.field f, SQLValue.rowValue r] })
    ∧ (∀ q : Query, f.In (SQLValue.query q) =
      { Format := "? IN (?)",
        Values := [SQLValue.field f, SQLValue.query q.NestThis] })
    ∧ (∀ v : SQLValue, (∀ r, v ≠ SQLValue.rowValue r) →
        (∀ q, v ≠ SQLValue.query q) →
        f.In v =
          { Format := "? IN (?)", Values := [SQLValue.field f, v] }) := by
  refine ⟨fun r => rfl, fun q => rfl, fun v hr hq => ?_⟩
  cases v with
  | rowValue r => exact absurd rfl (hr r)
  | query q => exact absurd rfl (hq q)
  | str s => rfl
  | field g => rfl
  | other n => rfl

/-- Witness for C6: the dispatch theorem applied to a literal field and
a plain string operand (neither a row-value nor a query). -/
theorem in_dispatch_witness :
    (sq.String "a").In (SQLValue.str "x") =
      { Format := "? IN (?)",
        Values := [SQLValue.field (sq.String "a"), SQLValue.str "x"] } :=
  (in_dispatch (sq.String "a")).2.2 (SQLValue.str "x")
    (fun _ h => SQLValue.noConfusion h)
    (fun _ h => SQLValue.noConfusion h)

/-- C3: an emitted identifier is wrapped in double quotes exactly when it
contains a space or a tab character (and is otherwise emitted bare, with
no escaping in either case), and the column branch of `AppendSQLExclude`
applies this rule to both the qualifier and the column name. -/
theorem whitespace_quoting (s : String) :
    (containsSpaceOrTab s = true ↔ ∃ c ∈ s.data, c = ' ' ∨ c = '\t')
    ∧ (containsSpaceOrTab s = true → quoteIdent s = "\"" ++ s ++ "\"")
    ∧ (containsSpaceOrTab s = false → quoteIdent s = s)
    ∧ ∀ (f : StringField) (buf : String) (args : List SQLValue)
        (ex : Option (List String)), f.value = none →
        f.AppendSQLExclude buf args ex =
          (buf ++ qualifierPart f.table ex ++ quoteIdent f.name
             ++ descSuffix f.descending ++ nullsSuffix f.nullsfirst,
           args) := by
  refine ⟨?_, ?_, ?_, ?_⟩
  · simp [containsSpaceOrTab, List.any_eq_true]
  · intro hw
    simp [quoteIdent, hw]
  · intro hw
    simp [quoteIdent, hw]
  · intro f buf args ex hv
    rw [render_eq]
    simp [renderBase, literalArgs, hv, String.append_assoc]

/-- C2 refuting instance: a column reference whose table has empty alias
and empty name has effective qualifier `""`; with an excluded list not
containing `""` the claim as stated demands the fragment `"" ++ "." ++
column = ".c"`, but the code suppresses the empty qualifier and emits
just `"c"`. -/
theorem qualifier_suppression_counterexample :
    StringField.AppendSQLExclude
        (NewStringField "c" { tAlias := "", tName := "" }) "" [] (some ["u"])
      = ("c", [])
    ∧ ("c" : String) ≠ "" ++ "." ++ "c" := by
  refine ⟨rfl, ?_⟩
  decide

/-- C2 (amended): for a column reference whose effective table qualifier
`Q` (the table's alias if non-empty, else its name) is itself non-empty:
rendering with an excluded list containing `Q` emits the bare
(whitespace-quoted) column name; rendering with a list not containing
`Q` emits `Q` (whitespace-quoted), then ".", then the column name
(whitespace-quoted); and rendering with a nil excluded list gives the
same output as with an empty list. -/
theorem qualifier_suppression (t : Table) (col buf : String)
    (args : List SQLValue) (xs : List String)
    (hQ : effQualifier t ≠ "") :
    (effQualifier t ∈ xs →
      StringField.AppendSQLExclude (NewStringField col t) buf args (some xs)
        = (buf ++ quoteIdent col, args))
    ∧ (effQualifier t ∉ xs →
      StringField.AppendSQLExclude (NewStringField col t) buf args (some xs)
        = (buf ++ quoteIdent (effQualifier t) ++ "." ++ quoteIdent col,
           args))
    ∧ StringField.AppendSQLExclude (NewStringField col t) buf args none
        = StringField.AppendSQLExclude (NewStringField col t) buf args
            (some []) := by
  have hmem : ∀ q : String, rangeContains q (some xs) = true ↔ q ∈ xs := by
    intro q
    unfold rangeContains
    rw [List.any_eq_true]
    constructor
    · rintro ⟨x, hx, hqx⟩
      rw [beq_iff_eq] at hqx
      rw [hqx]
      exact hx
    · intro hq
      exact ⟨q, hq, beq_self_eq_true q⟩
  refine ⟨?_, ?_, ?_⟩
  · intro hin
    rw [render_eq]
    have hrc : rangeContains (effQualifier t) (some xs) = true :=
      (hmem _).mpr hin
    simp only [renderBase, literalArgs, NewStringField, qualifierPart,
      descSuffix, nullsSuffix, hrc]
    simp
  · intro hout
    rw [render_eq]
    have hrc : rangeContains (effQualifier t) (some xs) = false := by
      cases h : rangeContains (effQualifier t) (some xs)
      · rfl
      · exact absurd ((hmem _).mp h) hout
    simp only [renderBase, literalArgs, NewStringField, qualifierPart,
      descSuffix, nullsSuffix, hrc]
    simp [hQ, String.append_assoc]
  · rw [render_eq, render_eq]
    simp [renderBase, qualifierPart, rangeContains]

/-- Witness for C2: the amended theorem applied to the column `name` of
a table aliased `u`, once with the alias excluded and once not. -/
theorem qualifier_suppression_witness :
    (StringField.AppendSQLExclude
        (NewStringField "name" { tAlias := "u", tName := "users" })
        "" [] (some ["u"])
      = ("" ++ quoteIdent "name", []))
    ∧ (StringField.AppendSQLExclude
        (NewStringField "name" { tAlias := "u", tName := "users" })
        "" [] (some ["x"])
      = ("" ++ quoteIdent (effQualifier { tAlias := "u", tName := "users" })
           ++ "." ++ quoteIdent "name", [])) :=
  ⟨(qualifier_suppression { tAlias := "u", tName := "users" } "name" "" []
      ["u"] (by decide)).1 (by decide),
   (qualifier_suppression { tAlias := "u", tName := "users" } "name" "" []
      ["x"] (by decide)).2.1 (by decide)⟩

/-- Witness for C3: a name with a space is wrapped, a name without is
bare, and a concrete column render goes through the quoting rule. -/
theorem whitespace_quoting_witness :
    quoteIdent "a b" = "\"" ++ "a b" ++ "\""
    ∧ quoteIdent "ab" = "ab"
    ∧ StringField.AppendSQLExclude
        (NewStringField "c" { tAlias := "u", tName := "users" }) "" [] none
        = ("" ++ qualifierPart { tAlias := "u", tName := "users" } none
             ++ quoteIdent "c" ++ descSuffix none ++ nullsSuffix none,
           []) :=
  ⟨(whitespace_quoting "a b").2.1 rfl,
   (whitespace_quoting "ab").2.2.1 rfl,
   (whitespace_quoting "z").2.2.2
     (NewStringField "c" { tAlias := "u", tName := "users" }) "" [] none rfl⟩

/-! A memory-level model of the decorator methods for the copy-on-modify
claim.  In Go, `value`, `descending` and `nullsfirst` are pointers, so
two `StringField` values can share state.  The heap below makes that
sharing explicit: pointer fields hold cell addresses, and the decorator
methods `As`/`Asc`/`Desc`/`NullsFirst`/`NullsLast` — which take the
receiver by value, set the copy's pointer to a freshly allocated cell
(`desc := true; f.descending = &desc`) and return the copy — are
transcribed as heap transformers that only ever append fresh cells. -/

/-- The allocated pointer cells: Go `*string` cells and `*bool` cells,
addressed by index. -/
structure Heap where
  strCells : List String
  boolCells : List Bool
deriving DecidableEq, Repr

/-- A `StringField` as laid out in Go memory: the three pointer fields
hold optional cell addresses (`none` is a nil pointer). -/
structure StringFieldRef where
  value : Option Nat
  fAlias : String
  table : Table
  name : String
  descending : Option Nat
  nullsfirst : Option Nat
deriving DecidableEq, Repr

/-- Read through an optional pointer; fails on a dangling address. -/
def readOpt {α : Type} (cells : List α) : Option Nat → Option (Option α)
  | none => some none
  | some a => (cells[a]?).map some

/-- Resolve a heap-resident field to the value-level `StringField` it
denotes (the input of `AppendSQLExclude`). -/
def resolve (h : Heap) (fr : StringFieldRef) : Option StringField := do
  let v ← readOpt h.strCells fr.value
  let d ← readOpt h.boolCells fr.descending
  let nf ← readOpt h.boolCells fr.nullsfirst
  pure { value := v, fAlias := fr.fAlias, table := fr.table,
         name := fr.name, descending := d, nullsfirst := nf }

/-- Allocate a fresh bool cell, as Go's `desc := true; &desc` does. -/
def allocBool (h : Heap) (b : Bool) : Heap × Nat :=
  ({ h with boolCells := h.boolCells ++ [b] }, h.boolCells.length)

/-- One decorator call. -/
inductive Decor where
  | as (a : String)
  | asc
  | desc
  | nullsFirst
  | nullsLast
deriving DecidableEq, Repr

/-- A decorator call at the memory level (source lines 126–161): the
value receiver is copied; `Asc`/`Desc`/`NullsFirst`/`NullsLast` point
the copy at a freshly allocated cell.  No existing cell is written. -/
def applyDecor : Decor → StringFieldRef → Heap → StringFieldRef × Heap
  | Decor.as a, fr, h => ({ fr with fAlias := a }, h)
  | Decor.asc, fr, h =>
    ({ fr with descending := some (allocBool h false).2 },
     (allocBool h false).1)
  | Decor.desc, fr, h =>
    ({ fr with descending := some (allocBool h true).2 },
     (allocBool h true).1)
  | Decor.nullsFirst, fr, h =>
    ({ fr with nullsfirst := some (allocBool h true).2 },
     (allocBool h true).1)
  | Decor.nullsLast, fr, h =>
    ({ fr with nullsfirst := some (allocBool h false).2 },
     (allocBool h false).1)

/-- A chain of decorator calls on a field, threading the heap. -/
def applyDecors : List Decor → StringFieldRef → Heap → StringFieldRef × Heap
  | [], fr, h => (fr, h)
  | d :: ds, fr, h =>
    applyDecors ds (applyDecor d fr h).1 (applyDecor d fr h).2

/-- `h2` extends `h1`: every cell of `h1` is intact in `h2`. -/
def HeapExtends (h1 h2 : Heap) : Prop :=
  ∃ ts us, h2.strCells = h1.strCells ++ ts ∧ h2.boolCells = h1.boolCells ++ us

theorem heapExtends_refl (h : Heap) : HeapExtends h h :=
  ⟨[], [], by simp, by simp⟩

theorem heapExtends_trans {h1 h2 h3 : Heap} (a : HeapExtends h1 h2)
    (b : HeapExtends h2 h3) : HeapExtends h1 h3 := by
  obtain ⟨ts, us, hs, hb⟩ := a
  obtain ⟨ts2, us2, hs2, hb2⟩ := b
  exact ⟨ts ++ ts2, us ++ us2, by rw [hs2, hs, List.append_assoc],
         by rw [hb2, hb, List.append_assoc]⟩

theorem readOpt_mono {α : Type} (cells more : List α) (p : Option Nat)
    (r : Option α) (hread : readOpt cells p = some r) :
    readOpt (cells ++ more) p = some r := by
  cases p with
  | none => exact hread
  | some a =>
    simp only [readOpt] at hread ⊢
    cases hx : cells[a]? with
    | none =>
      rw [hx] at hread
      cases hread
    | some x =>
      have hlt : a < cells.length := by
        by_contra hge
        rw [List.getElem?_eq_none (Nat.le_of_not_lt hge)] at hx
        cases hx
      rw [List.getElem?_append_left hlt, hx]
      rw [hx] at hread
      exact hread

theorem resolve_mono {h1 h2 : Heap} {fr : StringFieldRef} {f0 : StringField}
    (hext : HeapExtends h1 h2) (hres : resolve h1 fr = some f0) :
    resolve h2 fr = some f0 := by
  obtain ⟨ts, us, hs, hb⟩ := hext
  unfold resolve at hres ⊢
  rcases hv : readOpt h1.strCells fr.value with _ | v <;> rw [hv] at hres
  · cases hres
  rcases hd : readOpt h1.boolCells fr.descending with _ | d <;>
    rw [hd] at hres
  · cases hres
  rcases hnf : readOpt h1.boolCells fr.nullsfirst with _ | nf <;>
    rw [hnf] at hres
  · cases hres
  rw [hs, hb, readOpt_mono _ _ _ _ hv, readOpt_mono _ _ _ _ hd,
    readOpt_mono _ _ _ _ hnf]
  exact hres

theorem applyDecor_extends (d : Decor) (fr : StringFieldRef) (h : Heap) :
    HeapExtends h (applyDecor d fr h).2 := by
  cases d
  · exact heapExtends_refl h
  · exact ⟨[], [false], by simp [applyDecor, allocBool], rfl⟩
  · exact ⟨[], [true], by simp [applyDecor, allocBool], rfl⟩
  · exact ⟨[], [true], by simp [applyDecor, allocBool], rfl⟩
  · exact ⟨[], [false], by simp [applyDecor, allocBool], rfl⟩

theorem applyDecors_extends (ds : List Decor) :
    ∀ (fr : StringFieldRef) (h : Heap),
      HeapExtends h (applyDecors ds fr h).2 := by
  induction ds with
  | nil => exact fun fr h => heapExtends_refl h
  | cons d ds ih =>
    intro fr h
    exact heapExtends_trans (applyDecor_extends d fr h)
      (ih (applyDecor d fr h).1 (applyDecor d fr h).2)

/-- C5: decorator calls never mutate shared state: after an arbitrary
sequence of decorator calls starting from `fr`, every field `fr2` that
resolved in the original heap — `fr` itself, or any field sharing cells
with it — still resolves to the same value-level field, and therefore
still renders to exactly the same fragment and argument list. -/
theorem decorators_no_mutation (ds : List Decor) (fr : StringFieldRef)
    (h : Heap) (fr2 : StringFieldRef) (f0 : StringField)
    (hres : resolve h fr2 = some f0) :
    resolve (applyDecors ds fr h).2 fr2 = some f0
    ∧ ∀ (buf : String) (args : List SQLValue) (ex : Option (List String)),
        Option.map (fun g => StringField.AppendSQLExclude g buf args ex)
            (resolve (applyDecors ds fr h).2 fr2)
          = some (f0.AppendSQLExclude buf args ex) := by
  have h1 := resolve_mono (applyDecors_extends ds fr h) hres
  refine ⟨h1, fun buf args ex => ?_⟩
  rw [h1]
  rfl

/-- Witness for C5: a two-decorator chain (`Desc` then `NullsFirst`) on
a concrete column field leaves the original field resolving to the same
value. -/
theorem decorators_no_mutation_witness :
    resolve
      (applyDecors [Decor.desc, Decor.nullsFirst]
        { value := none, fAlias := "",
          table := { tAlias := "u", tName := "users" }, name := "name",
          descending := none, nullsfirst := none }
        { strCells := [], boolCells := [] }).2
      { value := none, fAlias := "",
        table := { tAlias := "u", tName := "users" }, name := "name",
        descending := none, nullsfirst := none }
      = some
        { value := none, fAlias := "",
          table := { tAlias := "u", tName := "users" }, name := "name",
          descending := none, nullsfirst := none } :=
  (decorators_no_mutation [Decor.desc, Decor.nullsFirst]
    { value := none, fAlias := "",
      table := { tAlias := "u", tName := "users" }, name := "name",
      descending := none, nullsfirst := none }
    { strCells := [], boolCells := [] }
    { value := none, fAlias := "",
      table := { tAlias := "u", tName := "users" }, name := "name",
      descending := none, nullsfirst := none }
    { value := none, fAlias := "",
      table := { tAlias := "u", tName := "users" }, name := "name",
      descending := none, nullsfirst := none }
    rfl).1
